import Mathlib

/-
Verification of the Period Resolution / Variant Probing / Cache-First Fetch /
Quarterly Normalization engine of `src/app.py` (a DART financial-statement
dashboard).  The Python functions `get_quarter_info`, the period-planning loop
of `collect_financials`, the DB cache (`init_db` schema, `INSERT OR REPLACE`
upsert of `save_financial_data_to_db`, the keyed lookup of
`get_financial_data_from_db`), the variant probing and bulk fan-out of
`collect_financials`, `adjust_q4_values` and `process_dataframe_for_view` are
shallowly embedded below.  DataFrames are embedded as lists of rows; SQL state
as a list of table rows with the declared primary key; the remote API as a
fetch oracle `Fetch`; NaN amounts (the result of `pd.to_numeric(...,
errors='coerce')`) as `Option Int` with `none` for NaN.
-/

namespace DartApp

/-! ### `get_quarter_info` (src/app.py lines 301-307)

`get_quarter_info(year_month)` splits `YYYYMM` with `// 100` and `% 100` and
maps the month to `(quarter, year, quarter_end_month)`.  The function performs
no validation of the month value. -/

def get_quarter_info (year_month : Nat) : Nat × Nat × Nat :=
  let year := year_month / 100
  let month := year_month % 100
  if month ≤ 3 then (1, year, 3)
  else if month ≤ 6 then (2, year, 6)
  else if month ≤ 9 then (3, year, 9)
  else (4, year, 12)

/-- The only input validation applied to the `기준 연월` form field
(src/app.py line 725): `year_month.isdigit() and len(year_month) == 6`. -/
def year_month_input_valid (s : String) : Bool :=
  s.toList.all Char.isDigit && s.length == 6

/-! ### Period planning loop of `collect_financials` (src/app.py lines 347-362)

The Python `while True` loop appends `(curr_y, curr_q)`, stops when the end
period is reached, and otherwise steps one quarter (wrapping quarter `4 → 1`
and incrementing the year).  Since `start_year = quarter_end_year - 4` the
loop runs at most `16 + end_q ≤ 20` iterations, so fuel `20` reproduces it
exactly. -/

def collectQuartersGo (end_y end_q : Nat) : Nat → Nat → Nat → List (Nat × Nat)
  | 0, _, _ => []
  | fuel + 1, curr_y, curr_q =>
    (curr_y, curr_q) ::
      (if curr_y == end_y && curr_q == end_q then []
       else if curr_q + 1 > 4 then collectQuartersGo end_y end_q fuel (curr_y + 1) 1
       else collectQuartersGo end_y end_q fuel curr_y (curr_q + 1))

def quartersToCollect (year_month : Nat) : List (Nat × Nat) :=
  let qi := get_quarter_info year_month
  let quarter := qi.1
  let quarter_end_year := qi.2.1
  let quarter_end_month := qi.2.2
  let start_year := quarter_end_year - 4
  let end_q := if quarter_end_month == 12 then 4 else quarter
  collectQuartersGo quarter_end_year end_q 20 start_year 1

/-! ### Cache store (src/app.py lines 65-77 and 261-299)

`init_db` declares table `cached_financials` with
`PRIMARY KEY (corp_code, year, report_code, fs_div, account_id)`, and
`save_financial_data_to_db` writes with `INSERT OR REPLACE`.  The table is
embedded as a list of rows; `INSERT OR REPLACE` on the declared primary key is
embedded as `upsertRow`: drop any row with the same key, then append. -/

structure DBRow where
  corp_code : String
  year : Nat
  quarter : Nat
  report_code : String
  fs_div : String
  account_id : String
  account_nm : String
  thstrm_amount : Int
deriving DecidableEq

def dbKey (r : DBRow) : String × Nat × String × String × String :=
  (r.corp_code, r.year, r.report_code, r.fs_div, r.account_id)

def upsertRow (t : List DBRow) (r : DBRow) : List DBRow :=
  t.filter (fun s => !(decide (dbKey s = dbKey r))) ++ [r]

/-- One row of a fetched statement, as produced by `get_financial_data`
(src/app.py lines 214-240): `thstrm_amount` went through
`pd.to_numeric(..., errors='coerce')`, so a malformed number is NaN, embedded
here as `none`. -/
structure FetchRow where
  account_id : String
  account_nm : String
  thstrm_amount : Option Int
deriving DecidableEq

/-- The two tracked account keys (src/app.py line 272). -/
def key_items : List String := ["ifrs-full_Revenue", "dart_OperatingIncomeLoss"]

/-- The row written for one tracked fetched line
(src/app.py lines 280-290): NaN amounts are stored as `0`
(`int(row['thstrm_amount']) if pd.notna(...) else 0`). -/
def mkSavedRow (corp : String) (year quarter : Nat) (rc fs : String)
    (s : FetchRow) : DBRow :=
  { corp_code := corp, year := year, quarter := quarter, report_code := rc,
    fs_div := fs, account_id := s.account_id, account_nm := s.account_nm,
    thstrm_amount := s.thstrm_amount.getD 0 }

/-- `save_financial_data_to_db` (src/app.py lines 261-299): keep only the two
tracked accounts, return without writing when nothing remains, otherwise
`INSERT OR REPLACE` each remaining row. -/
def save_financial_data_to_db (db : List DBRow) (df : List FetchRow)
    (corp : String) (year quarter : Nat) (rc fs : String) : List DBRow :=
  if df.isEmpty then db
  else if (df.filter (fun s => decide (s.account_id ∈ key_items))).isEmpty then db
  else (df.filter (fun s => decide (s.account_id ∈ key_items))).foldl
    (fun t s => upsertRow t (mkSavedRow corp year quarter rc fs s)) db

/-! ### `adjust_q4_values` (src/app.py lines 309-336)

The input dataframe is embedded as a list of rows carrying the columns used
by the function: `년도` (year), `분기` (quarter), `항목` (item), `구분`
(fs_div) and `thstrm_amount`.  For each year with quarter-4 rows and a
non-empty quarter 1..3 slice, the Python code builds
`q1_q2_q3_sum[(year, item, fs_div)]` for the *cross product* of the items and
fs_divs occurring in that slice (a pair present in the dict but with no
matching rows sums to 0), then subtracts the looked-up sum from each Q4 row
whose `(year, item, fs_div)` is a dict key.  Quarters 1..3 rows are never
modified, so a positional `map` over the original rows is an exact model. -/

structure QRow where
  year : Nat
  quarter : Nat
  item : String
  fs_div : String
  amount : Int
deriving DecidableEq

def isQ13Row (y : Nat) (it fs : String) (s : QRow) : Bool :=
  s.year == y && (s.quarter == 1 || s.quarter == 2 || s.quarter == 3) &&
    s.item == it && s.fs_div == fs

/-- `q1_q3_data[(q1_q3_data['항목'] == item) & (q1_q3_data['구분'] == fs_div)]['thstrm_amount'].sum()`. -/
def q13sum (rows : List QRow) (y : Nat) (it fs : String) : Int :=
  ((rows.filter (isQ13Row y it fs)).map QRow.amount).sum

/-- `item ∈ q1_q3_data['항목'].unique()` for the year's quarter 1..3 slice. -/
def itemPresentQ13 (rows : List QRow) (y : Nat) (it : String) : Bool :=
  rows.any (fun s =>
    s.year == y && (s.quarter == 1 || s.quarter == 2 || s.quarter == 3) &&
      s.item == it)

/-- `fs_div ∈ q1_q3_data['구분'].unique()` for the year's quarter 1..3 slice. -/
def fsPresentQ13 (rows : List QRow) (y : Nat) (fs : String) : Bool :=
  rows.any (fun s =>
    s.year == y && (s.quarter == 1 || s.quarter == 2 || s.quarter == 3) &&
      s.fs_div == fs)

/-- `adjust_q4_values`: a quarter-4 row is adjusted exactly when its
`(year, item, fs_div)` is a key of `q1_q2_q3_sum`, i.e. when its item and its
fs_div each occur somewhere in the year's quarter 1..3 slice (the per-year
`continue` on an empty slice is subsumed by these conditions). -/
def adjust_q4_values (rows : List QRow) : List QRow :=
  rows.map (fun r =>
    if r.quarter == 4 && itemPresentQ13 rows r.year r.item &&
        fsPresentQ13 rows r.year r.fs_div then
      { r with amount := r.amount - q13sum rows r.year r.item r.fs_div }
    else r)

def q4Example : List QRow :=
  [⟨2024, 1, "매출액", "연결", 100⟩, ⟨2024, 2, "매출액", "연결", 120⟩,
   ⟨2024, 3, "매출액", "연결", 90⟩, ⟨2024, 4, "매출액", "연결", 400⟩]

def q4ExampleAdjusted : List QRow :=
  [⟨2024, 1, "매출액", "연결", 100⟩, ⟨2024, 2, "매출액", "연결", 120⟩,
   ⟨2024, 3, "매출액", "연결", 90⟩, ⟨2024, 4, "매출액", "연결", 90⟩]

/-- Ascending lexicographic order on `(year, quarter)` pairs. -/
def yqLe (a b : Nat × Nat) : Prop :=
  a.1 < b.1 ∨ (a.1 = b.1 ∧ a.2 ≤ b.2)

instance (a b : Nat × Nat) : Decidable (yqLe a b) :=
  inferInstanceAs (Decidable (a.1 < b.1 ∨ (a.1 = b.1 ∧ a.2 ≤ b.2)))

instance : IsTotal (Nat × Nat) yqLe :=
  ⟨fun a b => by
    rcases Nat.lt_trichotomy a.1 b.1 with h | h | h
    · exact Or.inl (Or.inl h)
    · rcases Nat.le_total a.2 b.2 with h2 | h2
      · exact Or.inl (Or.inr ⟨h, h2⟩)
      · exact Or.inr (Or.inr ⟨h.symm, h2⟩)
    · exact Or.inr (Or.inl h)⟩

instance : IsTrans (Nat × Nat) yqLe :=
  ⟨fun a b c hab hbc => by
    rcases hab with h1 | ⟨h1, h1q⟩ <;> rcases hbc with h2 | ⟨h2, h2q⟩
    · exact Or.inl (h1.trans h2)
    · exact Or.inl (h2 ▸ h1)
    · exact Or.inl (h1 ▸ h2)
    · exact Or.inr ⟨h1.trans h2, h1q.trans h2q⟩⟩

/-! ### The fetch orchestration of `collect_financials` (src/app.py lines 342-460)

One collection run works on a fixed entity (`corp_code`) and API key, so the
remote API is embedded as a fetch oracle over the remaining arguments of
`get_financial_data`: `Fetch corp year report_code fs_div` is `some rows` when
the call returns data and `none` on any failure, non-success status or empty
payload (all collapsed by `get_financial_data` itself, lines 238-240).  The
run has four phases, modelled by `phase1Go` (the DB scan, lines 373-394),
`probeLoop` (variant probing, lines 401-413), `buildTasks` (the post-probing
re-check and task fan-out, lines 416-437) and the bulk execution (lines
440-458), whose HTTP calls are exactly one per task.  `collectRun` assembles
them and records every issued fetch as `(year, report_code, fs_code)` —
`probeLog` for the sequential probe calls, `tasks` for the bulk phase. -/

/-- Quarter to `(reprt_code, report name)` (src/app.py lines 374-377). -/
def reportInfo : Nat → String × String
  | 1 => ("11013", "1분기보고서")
  | 2 => ("11012", "반기보고서")
  | 3 => ("11014", "3분기보고서")
  | _ => ("11011", "사업보고서")

/-- The initial candidate variants, in scan order (src/app.py line 345). -/
def fs_divs : List (String × String) := [("연결", "CFS"), ("별도", "OFS")]

/-- `get_financial_data_from_db` (src/app.py lines 242-259): rows matching
`(corp_code, year, report_code, fs_div)`, `None` when there are none. -/
def get_financial_data_from_db (db : List DBRow) (corp : String) (year : Nat)
    (rc fs : String) : Option (List DBRow) :=
  if (db.filter (fun r => r.corp_code == corp && r.year == year &&
      r.report_code == rc && r.fs_div == fs)).isEmpty then none
  else some (db.filter (fun r => r.corp_code == corp && r.year == year &&
      r.report_code == rc && r.fs_div == fs))

def hasDB (db : List DBRow) (corp : String) (year : Nat) (rc fs : String) : Bool :=
  (get_financial_data_from_db db corp year rc fs).isSome

/-- One entry of `missing_tasks`: `(t_year, t_quarter, r_code, r_name)`. -/
structure MissTask where
  year : Nat
  quarter : Nat
  report_code : String
  report_name : String
deriving DecidableEq

def missKeyRC (t : MissTask) : Nat × String := (t.year, t.report_code)

def planKeyRC (p : Nat × Nat) : Nat × String := (p.1, (reportInfo p.2).1)

/-- The DB-scan loop (src/app.py lines 373-394): for each planned period try
the current candidate variants in order and keep the first DB hit; on a `CFS`
hit while both variants are still candidates, narrow to `CFS` only; record
periods with no hit in `missing_tasks`. -/
def phase1Go (db : List DBRow) (corp : String) :
    List (Nat × Nat) → List (String × String) → List MissTask →
    List (String × String) × List MissTask
  | [], det, miss => (det, miss)
  | pq :: rest, det, miss =>
    match det.find? (fun fd => hasDB db corp pq.1 (reportInfo pq.2).1 fd.2) with
    | some fd =>
        phase1Go db corp rest
          (if fd.2 == "CFS" && det.length > 1 then [("연결", "CFS")] else det) miss
    | none =>
        phase1Go db corp rest det
          (miss ++ [⟨pq.1, pq.2, (reportInfo pq.2).1, (reportInfo pq.2).2⟩])

def phase1 (db : List DBRow) (corp : String) (plan : List (Nat × Nat)) :
    List (String × String) × List MissTask :=
  phase1Go db corp plan fs_divs []

/-- `sorted(missing_tasks, key=lambda x: (x[0], x[1]), reverse=True)`
(src/app.py line 402): descending, stable; `missGE a b` says `a` may come
before `b`. -/
def missGE (a b : MissTask) : Prop :=
  yqLe (b.year, b.quarter) (a.year, a.quarter)

instance (a b : MissTask) : Decidable (missGE a b) :=
  inferInstanceAs (Decidable (yqLe (b.year, b.quarter) (a.year, a.quarter)))

instance : IsTotal MissTask missGE :=
  ⟨fun a b => total_of yqLe (b.year, b.quarter) (a.year, a.quarter)⟩

instance : IsTrans MissTask missGE :=
  ⟨fun a b c hab hbc => by
    unfold missGE at hab hbc ⊢
    exact IsTrans.trans _ _ _ hbc hab⟩

def sortMissingDesc (missing : List MissTask) : List MissTask :=
  List.insertionSort missGE missing

/-- The remote filings API, for the fixed entity and key of one run:
arguments are `(corp_code, year, reprt_code, fs_div)`. -/
abbrev Fetch := String → Nat → String → String → Option (List FetchRow)

/-- The probing loop (src/app.py lines 401-413): walk the missing periods
most recent first; per period fetch `CFS` first, on data confirm `CFS`, save
and stop; otherwise fetch `OFS`, on data confirm `OFS`, save and stop;
otherwise advance.  The third component logs the issued fetches in order. -/
def probeLoop (F : Fetch) (corp : String) :
    List MissTask → List (String × String) → List DBRow →
    List (Nat × String × String) →
    List (String × String) × List DBRow × List (Nat × String × String)
  | [], det, db, log => (det, db, log)
  | t :: rest, det, db, log =>
    match F corp t.year t.report_code "CFS" with
    | some df =>
        ([("연결", "CFS")],
         save_financial_data_to_db db df corp t.year t.quarter t.report_code "CFS",
         log ++ [(t.year, t.report_code, "CFS")])
    | none =>
      match F corp t.year t.report_code "OFS" with
      | some df =>
          ([("별도", "OFS")],
           save_financial_data_to_db db df corp t.year t.quarter t.report_code "OFS",
           log ++ [(t.year, t.report_code, "CFS"), (t.year, t.report_code, "OFS")])
      | none =>
          probeLoop F corp rest det db
            (log ++ [(t.year, t.report_code, "CFS"), (t.year, t.report_code, "OFS")])

/-- One entry of `api_tasks` (src/app.py lines 433-437). -/
structure ApiTask where
  year : Nat
  quarter : Nat
  report_code : String
  report_name : String
  fs_code : String
  fs_name : String
deriving DecidableEq

def taskKey (t : ApiTask) : Nat × String × String :=
  (t.year, t.report_code, t.fs_code)

/-- The post-probing re-check and task fan-out (src/app.py lines 416-437):
for each missing period, skip it when some candidate variant now has DB data
(the probe may have filled it); otherwise enqueue one task per candidate
variant. -/
def buildTasks (db : List DBRow) (corp : String) (det : List (String × String))
    (missing : List MissTask) : List ApiTask :=
  missing.flatMap (fun t =>
    if det.any (fun fd => hasDB db corp t.year t.report_code fd.2) then []
    else det.map (fun fd =>
      ⟨t.year, t.quarter, t.report_code, t.report_name, fd.2, fd.1⟩))

structure RunResult where
  determined : List (String × String)
  db : List DBRow
  probeLog : List (Nat × String × String)
  tasks : List ApiTask

/-- Every remote fetch issued during the run, as
`(year, report_code, fs_code)`: the sequential probe calls followed by the
bulk tasks (each bulk task is submitted to the pool exactly once,
src/app.py lines 441-445). -/
def RunResult.attempts (res : RunResult) : List (Nat × String × String) :=
  res.probeLog ++ res.tasks.map taskKey

/-- Probing happens only while both variants are still candidates
(src/app.py line 401). -/
def probePhase (F : Fetch) (corp : String) (db0 : List DBRow)
    (det1 : List (String × String)) (missing : List MissTask) :
    List (String × String) × List DBRow × List (Nat × String × String) :=
  if det1.length > 1 then probeLoop F corp (sortMissingDesc missing) det1 db0 []
  else (det1, db0, [])

def runPhase1 (db0 : List DBRow) (corp : String) (ym : Nat) :
    List (String × String) × List MissTask :=
  phase1 db0 corp (quartersToCollect ym)

def runProbe (F : Fetch) (corp : String) (db0 : List DBRow) (ym : Nat) :
    List (String × String) × List DBRow × List (Nat × String × String) :=
  probePhase F corp db0 (runPhase1 db0 corp ym).1 (runPhase1 db0 corp ym).2

def runTasks (F : Fetch) (corp : String) (db0 : List DBRow) (ym : Nat) :
    List ApiTask :=
  buildTasks (runProbe F corp db0 ym).2.1 corp (runProbe F corp db0 ym).1
    (runPhase1 db0 corp ym).2

/-- One full collection run (src/app.py lines 342-460): plan the periods,
scan the DB, probe only while both variants are still candidates and some
period is missing, then fan out the remaining misses under the surviving
candidates; bulk results are saved back as they complete. -/
def collectRun (F : Fetch) (corp : String) (db0 : List DBRow)
    (ym : Nat) : RunResult :=
  if ((runPhase1 db0 corp ym).2).isEmpty then
    { determined := (runPhase1 db0 corp ym).1, db := db0,
      probeLog := [], tasks := [] }
  else
    { determined := (runProbe F corp db0 ym).1,
      db := (runTasks F corp db0 ym).foldl (fun d t =>
        match F corp t.year t.report_code t.fs_code with
        | some df =>
            save_financial_data_to_db d df corp t.year t.quarter t.report_code
              t.fs_code
        | none => d) (runProbe F corp db0 ym).2.1,
      probeLog := (runProbe F corp db0 ym).2.2,
      tasks := runTasks F corp db0 ym }

/-- The candidate-variant list is always the full pair or a confirmed
singleton. -/
def detOk (det : List (String × String)) : Prop :=
  det = fs_divs ∨ det = [("연결", "CFS")] ∨ det = [("별도", "OFS")]

/-- An oracle for runs where every remote call fails or returns nothing. -/
def fetchNone : Fetch := fun _ _ _ _ => none

/-- A cache holding a single Separate (`OFS`) line item for 2023 Q3. -/
def dbSeparateOnly : List DBRow :=
  [⟨"c", 2023, 3, "11014", "OFS", "ifrs-full_Revenue", "수익", 5⟩]

/-- A cache holding a single Consolidated (`CFS`) line item for 2023 Q3. -/
def dbConsolidatedOnly : List DBRow :=
  [⟨"c", 2023, 3, "11014", "CFS", "ifrs-full_Revenue", "수익", 5⟩]

/-- An oracle with data only for `(2021, Q1)` under Separate. -/
def fetchOldestOFS : Fetch := fun _ year rc fs =>
  if year == 2021 && rc == "11013" && fs == "OFS" then
    some [⟨"ifrs-full_Revenue", "수익", some 100⟩]
  else none

def probeDf : List FetchRow := [⟨"ifrs-full_Revenue", "수익", some 100⟩]

/-- An oracle that has Consolidated data for every period. -/
def fetchCFS : Fetch := fun _ _ _ fs =>
  if fs == "CFS" then some probeDf else none

/-! ### `process_dataframe_for_view` (src/app.py lines 512-543)

The input is the collected dataframe restricted to the columns the function
reads: `년도` (year), `분기` (quarter), `항목` (item) and `thstrm_amount`.
`pivot_table(index=['년도','분기'], columns='항목', values='thstrm_amount',
aggfunc='first')` produces one output row per distinct `(년도, 분기)` pair,
with the group keys sorted ascending (and the subsequent explicit
`sort_values(['년도','분기'])` keeps that order); the cell for an item is the
first matching row's amount, NaN when the group has no row for that item, and
`fillna(0)` turns that NaN into 0.  The pivot only creates a column per item
value that occurs in the input, so `pivot_df['매출액']` (line 531) and
`pivot_df['영업이익']` (line 532) raise `KeyError` when that item occurs in no
input row at all; the failure is embedded as `none`.  Amounts are `Int` per
the cache's `BIGINT` column; the ratio columns are embedded in `ℚ`. -/

structure VRow where
  year : Nat
  quarter : Nat
  item : String
  amount : Int
deriving DecidableEq

structure ViewRow where
  year : Nat
  quarter : Nat
  revenue : ℚ
  opinc : ℚ
  margin : ℚ
deriving DecidableEq

/-- The `aggfunc='first'` cell for group `(y, q)` and column `it`. -/
def firstAmount (df : List VRow) (y q : Nat) (it : String) : Option Int :=
  (df.find? (fun r => r.year == y && r.quarter == q && r.item == it)).map
    VRow.amount

/-- The pivot's index: the distinct `(년도, 분기)` pairs, sorted ascending. -/
def viewKeys (df : List VRow) : List (Nat × Nat) :=
  List.insertionSort yqLe ((df.map (fun r => (r.year, r.quarter))).dedup)

/-- One output row: `fillna(0)` on both cells, then
`영업이익률 = 영업이익 / 매출액 * 100` guarded by `매출액 != 0` (line 535),
then unit scaling `/ 1000000` of the two amount columns (lines 540-541). -/
def mkViewRow (df : List VRow) (yq : Nat × Nat) : ViewRow :=
  let rev : ℚ := ((firstAmount df yq.1 yq.2 "매출액").getD 0 : Int)
  let op : ℚ := ((firstAmount df yq.1 yq.2 "영업이익").getD 0 : Int)
  { year := yq.1, quarter := yq.2,
    revenue := rev / 1000000,
    opinc := op / 1000000,
    margin := if rev ≠ 0 then op / rev * 100 else 0 }

def process_dataframe_for_view (df : List VRow) : Option (List ViewRow) :=
  if df.isEmpty then some []
  else if df.any (fun r => r.item == "매출액") &&
      df.any (fun r => r.item == "영업이익") then
    some ((viewKeys df).map (mkViewRow df))
  else none

def viewExample : List VRow :=
  [⟨2024, 1, "매출액", 7⟩, ⟨2024, 2, "영업이익", 3⟩]

/-! ## Theorems -/

/-- C2: for the target `(year = 2025, month = 9)` (input `202509`) the period
planner yields exactly the ascending quarters `(2021, 1)` through `(2025, 3)`,
19 entries, with no duplicates, stepping one quarter at a time with quarter 4
wrapping to 1 and incrementing the year. -/
theorem plan_for_202509 :
    quartersToCollect 202509 =
      [(2021, 1), (2021, 2), (2021, 3), (2021, 4),
       (2022, 1), (2022, 2), (2022, 3), (2022, 4),
       (2023, 1), (2023, 2), (2023, 3), (2023, 4),
       (2024, 1), (2024, 2), (2024, 3), (2024, 4),
       (2025, 1), (2025, 2), (2025, 3)] ∧
    (quartersToCollect 202509).length = 19 ∧
    (quartersToCollect 202509).Nodup ∧
    List.Chain' (fun a b : Nat × Nat =>
      b.1 = (if a.2 = 4 then a.1 + 1 else a.1) ∧
      b.2 = (if a.2 = 4 then 1 else a.2 + 1))
      (quartersToCollect 202509) := by
  refine ⟨by decide, by decide, by decide, ?_⟩
  have h : quartersToCollect 202509 =
      [(2021, 1), (2021, 2), (2021, 3), (2021, 4),
       (2022, 1), (2022, 2), (2022, 3), (2022, 4),
       (2023, 1), (2023, 2), (2023, 3), (2023, 4),
       (2024, 1), (2024, 2), (2024, 3), (2024, 4),
       (2025, 1), (2025, 2), (2025, 3)] := by decide
  rw [h]
  norm_num [List.chain'_cons]

/-- C6 (counterexample): the input `"202513"`, whose month field `13` lies
outside `1..12`, passes the form validation and is mapped by
`get_quarter_info` to quarter 4 (Annual) — it is not rejected as invalid. -/
theorem month13_mapped_not_rejected :
    year_month_input_valid "202513" = true ∧
    get_quarter_info 202513 = (4, 2025, 12) := by
  refine ⟨by decide, by decide⟩

/-- C6 (amended): the quarter derivation from `year_month` is deterministic
and total for every month value, valid or not: month ≤ 3 maps to quarter 1,
month ≤ 6 to quarter 2, month ≤ 9 to quarter 3, and every larger month —
including invalid months 13..99 — to quarter 4; no month value is rejected. -/
theorem quarter_mapping_total (ym : Nat) :
    (ym % 100 ≤ 3 → get_quarter_info ym = (1, ym / 100, 3)) ∧
    (3 < ym % 100 → ym % 100 ≤ 6 → get_quarter_info ym = (2, ym / 100, 6)) ∧
    (6 < ym % 100 → ym % 100 ≤ 9 → get_quarter_info ym = (3, ym / 100, 9)) ∧
    (9 < ym % 100 → get_quarter_info ym = (4, ym / 100, 12)) := by
  unfold get_quarter_info
  refine ⟨fun h1 => ?_, fun h3 h6 => ?_, fun h6 h9 => ?_, fun h9 => ?_⟩
  · simp [h1]
  · simp [Nat.not_le.mpr h3, h6]
  · simp [show ¬ ym % 100 ≤ 3 by omega, Nat.not_le.mpr h6, h9]
  · simp [show ¬ ym % 100 ≤ 3 by omega, show ¬ ym % 100 ≤ 6 by omega,
      Nat.not_le.mpr h9]

/-- Witness for `quarter_mapping_total` at the concrete invalid month 13. -/
theorem quarter_mapping_total_witness :
    get_quarter_info 202513 = (4, 2025, 12) :=
  (quarter_mapping_total 202513).2.2.2 (by decide)

/-- Any row of a fold of upserts is either an original row or one of the
upserted rows. -/
theorem mem_foldl_upsertRow (g : FetchRow → DBRow) :
    ∀ (rows : List FetchRow) (t : List DBRow) (x : DBRow),
      x ∈ rows.foldl (fun acc s => upsertRow acc (g s)) t →
      x ∈ t ∨ ∃ s ∈ rows, x = g s
  | [], _, _, h => Or.inl h
  | s0 :: rows, t, x, h => by
    rcases mem_foldl_upsertRow g rows (upsertRow t (g s0)) x h with h1 | ⟨s, hs, rfl⟩
    · rcases List.mem_append.mp h1 with h2 | h2
      · exact Or.inl (List.mem_of_mem_filter h2)
      · exact Or.inr ⟨s0, List.mem_cons_self _ _, by simpa using h2⟩
    · exact Or.inr ⟨s, List.mem_cons_of_mem _ hs, rfl⟩

/-- C7: upserting a `LineItem` under the cache's primary key is idempotent,
leaves exactly one stored row for that key, with exactly the upserted content,
and never raises a key conflict (`upsertRow` is total). -/
theorem upsert_idempotent (t : List DBRow) (r : DBRow) :
    upsertRow (upsertRow t r) r = upsertRow t r ∧
    (upsertRow t r).filter (fun s => decide (dbKey s = dbKey r)) = [r] ∧
    r ∈ upsertRow t r := by
  refine ⟨?_, ?_, List.mem_append_right _ (List.mem_singleton.mpr rfl)⟩
  · simp [upsertRow, List.filter_append, List.filter_filter]
  · simp [upsertRow, List.filter_append, List.filter_filter]

/-- C9: every row persisted by `save_financial_data_to_db` that is not a
pre-existing row is a tracked-account row built by `mkSavedRow`, whose stored
amount is a total `Int` (`getD 0`); in particular a fetched line whose amount
is NaN (`none`) is stored with amount `0`, as the second and third conjuncts
exhibit. -/
theorem save_tracked_nonnull (db : List DBRow) (df : List FetchRow)
    (corp : String) (year quarter : Nat) (rc fs : String) (r : DBRow)
    (hr : r ∈ save_financial_data_to_db db df corp year quarter rc fs) :
    (r ∈ db ∨ (r.account_id ∈ key_items ∧
      ∃ s ∈ df, r = mkSavedRow corp year quarter rc fs s)) ∧
    save_financial_data_to_db [] [⟨"ifrs-full_Revenue", "수익", none⟩]
        corp year quarter rc fs =
      [mkSavedRow corp year quarter rc fs ⟨"ifrs-full_Revenue", "수익", none⟩] ∧
    (mkSavedRow corp year quarter rc fs
      ⟨"ifrs-full_Revenue", "수익", none⟩).thstrm_amount = 0 := by
  refine ⟨?_, ?_, rfl⟩
  · unfold save_financial_data_to_db at hr
    split at hr
    · exact Or.inl hr
    · split at hr
      · exact Or.inl hr
      · rcases mem_foldl_upsertRow _ _ _ _ hr with h1 | ⟨s, hs, rfl⟩
        · exact Or.inl h1
        · have hmem := List.mem_of_mem_filter hs
          have htracked : s.account_id ∈ key_items := by
            have hh := List.of_mem_filter hs
            simpa using hh
          exact Or.inr ⟨by simpa [mkSavedRow] using htracked, s, hmem, rfl⟩
  · simp [save_financial_data_to_db, upsertRow, key_items]

/-- Witness for `save_tracked_nonnull`, at a one-row fetch whose amount is
NaN: the stored row carries amount `0` and a tracked account key. -/
theorem save_tracked_nonnull_witness :
    mkSavedRow "c" 2024 1 "11013" "CFS" ⟨"ifrs-full_Revenue", "수익", none⟩ ∈
      ([] : List DBRow) ∨
    (mkSavedRow "c" 2024 1 "11013" "CFS"
        ⟨"ifrs-full_Revenue", "수익", none⟩).account_id ∈ key_items ∧
    ∃ s ∈ [(⟨"ifrs-full_Revenue", "수익", none⟩ : FetchRow)],
      mkSavedRow "c" 2024 1 "11013" "CFS" ⟨"ifrs-full_Revenue", "수익", none⟩ =
        mkSavedRow "c" 2024 1 "11013" "CFS" s :=
  (save_tracked_nonnull [] [⟨"ifrs-full_Revenue", "수익", none⟩] "c" 2024 1
    "11013" "CFS" (mkSavedRow "c" 2024 1 "11013" "CFS"
      ⟨"ifrs-full_Revenue", "수익", none⟩) (by decide)).1

theorem q13sum_eq_zero_of_item_absent (rows : List QRow) (y : Nat)
    (it fs : String) (h : itemPresentQ13 rows y it = false) :
    q13sum rows y it fs = 0 := by
  unfold itemPresentQ13 at h
  have hall := List.any_eq_false.mp h
  unfold q13sum
  have hnil : rows.filter (isQ13Row y it fs) = [] := by
    rw [List.filter_eq_nil_iff]
    intro s hs hpred
    apply hall s hs
    simp only [isQ13Row, Bool.and_eq_true] at hpred
    simp [hpred.1.1.1, hpred.1.1.2, hpred.1.2]
  simp [hnil]

theorem q13sum_eq_zero_of_fs_absent (rows : List QRow) (y : Nat)
    (it fs : String) (h : fsPresentQ13 rows y fs = false) :
    q13sum rows y it fs = 0 := by
  unfold fsPresentQ13 at h
  have hall := List.any_eq_false.mp h
  unfold q13sum
  have hnil : rows.filter (isQ13Row y it fs) = [] := by
    rw [List.filter_eq_nil_iff]
    intro s hs hpred
    apply hall s hs
    simp only [isQ13Row, Bool.and_eq_true] at hpred
    simp [hpred.1.1.1, hpred.1.1.2, hpred.2]
  simp [hnil]

/-- C1: `adjust_q4_values` replaces every quarter-4 amount by the annual
cumulative amount minus the sum of the amounts present for quarters 1..3 of
the same year, item and fs_div — unconditionally, because whenever the
cross-product guard fails the corresponding quarter 1..3 sum is 0 (so with no
quarter 1..3 rows the Q4 value is the unchanged annual amount); and on the
spec's example Q1=100, Q2=120, Q3=90, Annual=400 the derived Q4 amount
is 90. -/
theorem adjust_q4_discrete :
    (∀ rows : List QRow, adjust_q4_values rows =
      rows.map (fun r =>
        if r.quarter == 4 then
          { r with amount := r.amount - q13sum rows r.year r.item r.fs_div }
        else r)) ∧
    adjust_q4_values q4Example = q4ExampleAdjusted := by
  refine ⟨fun rows => ?_, by decide⟩
  unfold adjust_q4_values
  refine congrArg (fun f => List.map f rows) (funext fun r => ?_)
  by_cases hq : r.quarter == 4
  · by_cases hA : itemPresentQ13 rows r.year r.item
    · by_cases hB : fsPresentQ13 rows r.year r.fs_div
      · simp [hq, hA, hB]
      · have h0 := q13sum_eq_zero_of_fs_absent rows r.year r.item r.fs_div
          (by simpa using hB)
        simp [hq, hA, hB, h0]
    · have h0 := q13sum_eq_zero_of_item_absent rows r.year r.item r.fs_div
        (by simpa using hA)
      simp [hq, hA, h0]
  · simp [hq]

/-- C8 (counterexample): a non-empty collected data set in which the revenue
item occurs in no row makes `pivot_df['매출액']` raise `KeyError`, so the view
step produces no normalized output at all — not one row per `(year, quarter)`
present. -/
theorem view_missing_item_errors :
    process_dataframe_for_view [⟨2024, 1, "영업이익", 5⟩] = none ∧
    ([⟨2024, 1, "영업이익", 5⟩] : List VRow) ≠ [] := by
  refine ⟨rfl, by decide⟩

theorem view_out_form (df : List VRow) (out : List ViewRow)
    (h : process_dataframe_for_view df = some out) :
    out = (viewKeys df).map (mkViewRow df) := by
  unfold process_dataframe_for_view at h
  split at h
  · rename_i hdf
    have hdf' : df = [] := by simpa using List.isEmpty_iff.mp hdf
    subst hdf'
    exact (Option.some_inj.mp h).symm
  · split at h
    · exact (Option.some_inj.mp h).symm
    · exact absurd h (by simp)

theorem view_out_keys (df : List VRow) (out : List ViewRow)
    (h : process_dataframe_for_view df = some out) :
    out.map (fun v => (v.year, v.quarter)) = viewKeys df := by
  rw [view_out_form df out h, List.map_map]
  have hcomp : ((fun v : ViewRow => (v.year, v.quarter)) ∘ mkViewRow df) = id :=
    funext fun yq => rfl
  rw [hcomp, List.map_id]

/-- C8 (amended): whenever the view step succeeds (both tracked items occur
somewhere in the non-empty input, so no `KeyError` is raised), the output has
exactly one row per `(year, quarter)` present in the input, sorted ascending
by `(year, quarter)`, and each row's revenue and operating income are the
first matching amount, defaulting to 0 when absent for that slot (scaled to
millions). -/
theorem view_rows_exactly_per_key (df : List VRow) (out : List ViewRow)
    (m : ViewRow) (h : process_dataframe_for_view df = some out) (hm : m ∈ out) :
    (out.map (fun v => (v.year, v.quarter))).Nodup ∧
    List.Sorted yqLe (out.map (fun v => (v.year, v.quarter))) ∧
    (∀ y q : Nat, (y, q) ∈ out.map (fun v => (v.year, v.quarter)) ↔
      (y, q) ∈ df.map (fun r => (r.year, r.quarter))) ∧
    m.revenue = (((firstAmount df m.year m.quarter "매출액").getD 0 : Int) : ℚ)
      / 1000000 ∧
    m.opinc = (((firstAmount df m.year m.quarter "영업이익").getD 0 : Int) : ℚ)
      / 1000000 := by
  have hkeys := view_out_keys df out h
  have hform := view_out_form df out h
  have hperm := List.perm_insertionSort yqLe
    ((df.map (fun r => (r.year, r.quarter))).dedup)
  have hmm : m ∈ (viewKeys df).map (mkViewRow df) := hform ▸ hm
  rcases List.mem_map.mp hmm with ⟨yq, _, hmk⟩
  refine ⟨?_, ?_, fun y q => ?_, ?_, ?_⟩
  · rw [hkeys]
    exact hperm.nodup_iff.mpr (List.nodup_dedup _)
  · rw [hkeys]
    exact List.sorted_insertionSort yqLe _
  · rw [hkeys]
    unfold viewKeys
    rw [hperm.mem_iff, List.mem_dedup]
  · rw [← hmk]; rfl
  · rw [← hmk]; rfl

theorem viewExample_process :
    process_dataframe_for_view viewExample =
      some ((viewKeys viewExample).map (mkViewRow viewExample)) := rfl

/-- Witness for `view_rows_exactly_per_key`: on a concrete data set where the
`(2024, 2)` slot has no revenue row, the emitted revenue is the default 0
(scaled). -/
theorem view_rows_exactly_per_key_witness :
    (mkViewRow viewExample (2024, 2)).revenue =
      (((firstAmount viewExample 2024 2 "매출액").getD 0 : Int) : ℚ) / 1000000 :=
  (view_rows_exactly_per_key viewExample
    ((viewKeys viewExample).map (mkViewRow viewExample))
    (mkViewRow viewExample (2024, 2)) viewExample_process
    (List.mem_map_of_mem _ (by decide))).2.2.2.1

/-- C10: in every emitted view row the operating margin is guarded against
division by zero: it equals `opinc / revenue * 100` when the revenue is
non-zero and exactly 0 when the revenue is 0 (the guard in the source is on
the unscaled revenue, which vanishes exactly when the scaled one does). -/
theorem margin_guarded (df : List VRow) (out : List ViewRow) (m : ViewRow)
    (h : process_dataframe_for_view df = some out) (hm : m ∈ out) :
    m.margin = if m.revenue ≠ 0 then m.opinc / m.revenue * 100 else 0 := by
  have hform := view_out_form df out h
  subst hform
  rcases List.mem_map.mp hm with ⟨yq, _, rfl⟩
  simp only [mkViewRow]
  set rev : ℚ := (((firstAmount df yq.1 yq.2 "매출액").getD 0 : Int) : ℚ) with hrev
  set op : ℚ := (((firstAmount df yq.1 yq.2 "영업이익").getD 0 : Int) : ℚ) with hop
  by_cases h0 : rev = 0
  · simp [h0]
  · have hscaled : rev / 1000000 ≠ 0 := by
      simp [div_eq_zero_iff, h0]
    rw [if_pos h0, if_pos hscaled]
    have hdiv : op / 1000000 / (rev / 1000000) = op / rev := by
      field_simp
    rw [hdiv]

/-- Witness for `margin_guarded` at the concrete `(2024, 1)` row of
`viewExample`. -/
theorem margin_guarded_witness :
    (mkViewRow viewExample (2024, 1)).margin =
      if (mkViewRow viewExample (2024, 1)).revenue ≠ 0 then
        (mkViewRow viewExample (2024, 1)).opinc /
          (mkViewRow viewExample (2024, 1)).revenue * 100
      else 0 :=
  margin_guarded viewExample ((viewKeys viewExample).map (mkViewRow viewExample))
    (mkViewRow viewExample (2024, 1)) viewExample_process
    (List.mem_map_of_mem _ (by decide))

/-- Once the DB scan has narrowed the candidates to Consolidated only, they
stay Consolidated only: the narrowing branch needs more than one candidate. -/
theorem phase1Go_cfs_only (db : List DBRow) (corp : String) :
    ∀ (plan : List (Nat × Nat)) (miss : List MissTask),
      (phase1Go db corp plan [("연결", "CFS")] miss).1 = [("연결", "CFS")]
  | [], _ => rfl
  | pq :: rest, miss => by
    unfold phase1Go
    cases hf : List.find?
        (fun fd => hasDB db corp pq.1 (reportInfo pq.2).1 fd.2)
        [("연결", "CFS")] with
    | none => exact phase1Go_cfs_only db corp rest _
    | some fd =>
      simp only [ite_self]
      exact phase1Go_cfs_only db corp rest miss

/-- A Consolidated cache hit at any planned period narrows the scan's
candidate set to Consolidated only (the hit is seen first because `CFS` is
checked before `OFS` at each period). -/
theorem phase1Go_narrows (db : List DBRow) (corp : String) :
    ∀ (plan : List (Nat × Nat)) (miss : List MissTask),
      plan.any (fun pq => hasDB db corp pq.1 (reportInfo pq.2).1 "CFS") = true →
      (phase1Go db corp plan fs_divs miss).1 = [("연결", "CFS")]
  | [], _, hany => by simp at hany
  | pq :: rest, miss, hany => by
    unfold phase1Go
    cases hc : hasDB db corp pq.1 (reportInfo pq.2).1 "CFS" with
    | true =>
      have hfind : List.find?
          (fun fd => hasDB db corp pq.1 (reportInfo pq.2).1 fd.2) fs_divs =
          some ("연결", "CFS") := by
        simp [fs_divs, List.find?, hc]
      rw [hfind]
      exact phase1Go_cfs_only db corp rest miss
    | false =>
      have hrest : rest.any
          (fun pq => hasDB db corp pq.1 (reportInfo pq.2).1 "CFS") = true := by
        simp only [List.any_cons, hc, Bool.false_or] at hany
        exact hany
      cases ho : hasDB db corp pq.1 (reportInfo pq.2).1 "OFS" with
      | true =>
        have hfind : List.find?
            (fun fd => hasDB db corp pq.1 (reportInfo pq.2).1 fd.2) fs_divs =
            some ("별도", "OFS") := by
          simp [fs_divs, List.find?, hc, ho]
        rw [hfind]
        exact phase1Go_narrows db corp rest miss hrest
      | false =>
        have hfind : List.find?
            (fun fd => hasDB db corp pq.1 (reportInfo pq.2).1 fd.2) fs_divs =
            none := by
          simp [fs_divs, List.find?, hc, ho]
        rw [hfind]
        exact phase1Go_narrows db corp rest _ hrest

/-- Every bulk task comes from a missing period under one of the surviving
candidate variants. -/
theorem mem_buildTasks {db : List DBRow} {corp : String}
    {det : List (String × String)} {missing : List MissTask} {t : ApiTask}
    (ht : t ∈ buildTasks db corp det missing) :
    ∃ mt ∈ missing, ∃ fd ∈ det,
      t = ⟨mt.year, mt.quarter, mt.report_code, mt.report_name, fd.2, fd.1⟩ := by
  unfold buildTasks at ht
  rcases List.mem_flatMap.mp ht with ⟨mt, hmt, hin⟩
  split at hin
  · exact absurd hin (List.not_mem_nil t)
  · rcases List.mem_map.mp hin with ⟨fd, hfd, rfl⟩
    exact ⟨mt, hmt, fd, hfd, rfl⟩

/-- C3 (counterexample): with one cached Separate (`OFS`) line item and all
other periods missing, the run still attempts Consolidated fetches and the
candidate set is never narrowed — a cached Separate item does *not* confirm
the Separate variant (the scan narrows only on `CFS` hits,
src/app.py line 389). -/
theorem separate_cache_still_probes_consolidated :
    (collectRun fetchNone "c" dbSeparateOnly 202503).attempts.any
      (fun a => a.2.2 == "CFS") = true ∧
    (collectRun fetchNone "c" dbSeparateOnly 202503).determined = fs_divs := by
  refine ⟨by decide, by decide⟩

/-- C3 (amended): only Consolidated cache evidence narrows: if any planned
period has a cached `CFS` line item, the run confirms Consolidated and every
fetch it issues — probe or bulk — targets `CFS`; no Separate fetch is
attempted.  (A cached Separate item gives no such guarantee, per the
counterexample.) -/
theorem cfs_cache_narrows (F : Fetch) (corp : String) (db : List DBRow)
    (ym : Nat)
    (hev : (quartersToCollect ym).any
      (fun pq => hasDB db corp pq.1 (reportInfo pq.2).1 "CFS") = true) :
    (collectRun F corp db ym).determined = [("연결", "CFS")] ∧
    (collectRun F corp db ym).attempts.all (fun a => a.2.2 == "CFS") = true := by
  have hdet1 : (runPhase1 db corp ym).1 = [("연결", "CFS")] :=
    phase1Go_narrows db corp (quartersToCollect ym) [] hev
  have hprobe : runProbe F corp db ym = ([("연결", "CFS")], db, []) := by
    unfold runProbe probePhase
    rw [hdet1]
    rfl
  unfold collectRun
  split
  · exact ⟨hdet1, rfl⟩
  · refine ⟨hprobe ▸ rfl, ?_⟩
    rw [List.all_eq_true]
    intro x hx
    simp only [RunResult.attempts] at hx
    rw [hprobe] at hx
    simp only [List.nil_append] at hx
    rcases List.mem_map.mp hx with ⟨tk, htk, rfl⟩
    have htk' : tk ∈ buildTasks db corp [("연결", "CFS")]
        (runPhase1 db corp ym).2 := by
      unfold runTasks at htk
      rw [hprobe] at htk
      exact htk
    rcases mem_buildTasks htk' with ⟨mt, _, fd, hfd, rfl⟩
    have hfd' : fd = ("연결", "CFS") := by simpa using hfd
    subst hfd'
    rfl

/-- Witness for `cfs_cache_narrows`: one cached Consolidated line item, all
other periods missing, every fetch of the run targets Consolidated. -/
theorem cfs_cache_narrows_witness :
    (collectRun fetchNone "c" dbConsolidatedOnly 202503).determined =
      [("연결", "CFS")] ∧
    (collectRun fetchNone "c" dbConsolidatedOnly 202503).attempts.all
      (fun a => a.2.2 == "CFS") = true :=
  cfs_cache_narrows fetchNone "c" dbConsolidatedOnly 202503 (by decide)

/-- The `(year, report_code)` keys of the missing periods form a sublist of
the accumulator's keys followed by the plan's keys: the scan visits each
planned period once and appends it to `missing_tasks` at most once. -/
theorem phase1Go_missing_sublist (db : List DBRow) (corp : String) :
    ∀ (plan : List (Nat × Nat)) (det : List (String × String))
      (miss : List MissTask),
      List.Sublist (((phase1Go db corp plan det miss).2).map missKeyRC)
        (miss.map missKeyRC ++ plan.map planKeyRC)
  | [], det, miss => by simp [phase1Go]
  | pq :: rest, det, miss => by
    unfold phase1Go
    cases hf : List.find?
        (fun fd => hasDB db corp pq.1 (reportInfo pq.2).1 fd.2) det with
    | some fd =>
      have ih := phase1Go_missing_sublist db corp rest
        (if fd.2 == "CFS" && det.length > 1 then [("연결", "CFS")] else det) miss
      exact ih.trans (List.Sublist.append_left
        (List.sublist_cons_self (planKeyRC pq) (rest.map planKeyRC)) _)
    | none =>
      have ih := phase1Go_missing_sublist db corp rest det
        (miss ++ [⟨pq.1, pq.2, (reportInfo pq.2).1, (reportInfo pq.2).2⟩])
      simpa [missKeyRC, planKeyRC, List.append_assoc] using ih

/-- The DB scan preserves the candidate-set invariant. -/
theorem phase1Go_detOk (db : List DBRow) (corp : String) :
    ∀ (plan : List (Nat × Nat)) (det : List (String × String))
      (miss : List MissTask), detOk det →
      detOk (phase1Go db corp plan det miss).1
  | [], _, _, h => h
  | pq :: rest, det, miss, h => by
    unfold phase1Go
    cases hf : List.find?
        (fun fd => hasDB db corp pq.1 (reportInfo pq.2).1 fd.2) det with
    | some fd =>
      refine phase1Go_detOk db corp rest _ miss ?_
      split
      · exact Or.inr (Or.inl rfl)
      · exact h
    | none => exact phase1Go_detOk db corp rest det _ h

/-- Probing preserves the candidate-set invariant. -/
theorem probeLoop_detOk (F : Fetch) (corp : String) :
    ∀ (ms : List MissTask) (det : List (String × String)) (db : List DBRow)
      (log : List (Nat × String × String)), detOk det →
      detOk (probeLoop F corp ms det db log).1
  | [], _, _, _, h => h
  | t :: rest, det, db, log, h => by
    unfold probeLoop
    cases hc : F corp t.year t.report_code "CFS" with
    | some df => exact Or.inr (Or.inl rfl)
    | none =>
      cases ho : F corp t.year t.report_code "OFS" with
      | some df => exact Or.inr (Or.inr rfl)
      | none => exact probeLoop_detOk F corp rest det db _ h

theorem detOk_codes_nodup {det : List (String × String)} (h : detOk det) :
    (det.map (fun fd => fd.2)).Nodup := by
  rcases h with rfl | rfl | rfl <;> decide

/-- The probe log never fetches the same `(year, report_code, fs)` twice:
each walked period contributes its own `(year, report_code)` at most once
under each variant, and the walked periods have distinct keys. -/
theorem probeLoop_log_nodup (F : Fetch) (corp : String) :
    ∀ (ms : List MissTask) (det : List (String × String)) (db : List DBRow)
      (log : List (Nat × String × String)),
      (ms.map missKeyRC).Nodup →
      (∀ a ∈ log, (a.1, a.2.1) ∉ ms.map missKeyRC) →
      log.Nodup →
      ((probeLoop F corp ms det db log).2.2).Nodup
  | [], _, _, log, _, _, hlog => hlog
  | t :: rest, det, db, log, hms, hdisj, hlog => by
    have hcons := List.nodup_cons.mp (List.map_cons missKeyRC t rest ▸ hms)
    have hnotinC : (t.year, t.report_code, "CFS") ∉ log := fun hin =>
      hdisj _ hin (by
        rw [List.map_cons]
        exact List.mem_cons_self _ _)
    have hnotinO : (t.year, t.report_code, "OFS") ∉ log := fun hin =>
      hdisj _ hin (by
        rw [List.map_cons]
        exact List.mem_cons_self _ _)
    have hlogC : (log ++ [(t.year, t.report_code, "CFS")]).Nodup := by
      rw [List.nodup_append]
      refine ⟨hlog, by simp, ?_⟩
      intro a ha hb
      rw [List.mem_singleton] at hb
      subst hb
      exact hnotinC ha
    have hlogCO : (log ++ [(t.year, t.report_code, "CFS"),
        (t.year, t.report_code, "OFS")]).Nodup := by
      rw [List.nodup_append]
      refine ⟨hlog, by simp, ?_⟩
      intro a ha hb
      rcases List.mem_cons.mp hb with rfl | hb2
      · exact hnotinC ha
      · rw [List.mem_singleton] at hb2
        subst hb2
        exact hnotinO ha
    unfold probeLoop
    cases hc : F corp t.year t.report_code "CFS" with
    | some df => exact hlogC
    | none =>
      cases ho : F corp t.year t.report_code "OFS" with
      | some df => exact hlogCO
      | none =>
        refine probeLoop_log_nodup F corp rest det db _ hcons.2 ?_ hlogCO
        intro a ha
        rcases List.mem_append.mp ha with ha1 | ha2
        · intro hmem
          exact hdisj a ha1 (by
            rw [List.map_cons]
            exact List.mem_cons_of_mem _ hmem)
        · intro hmem
          have hkey : (a.1, a.2.1) = missKeyRC t := by
            rcases List.mem_cons.mp ha2 with rfl | h2
            · rfl
            · rw [List.mem_singleton] at h2
              subst h2
              rfl
          rw [hkey] at hmem
          exact hcons.1 hmem

theorem mem_buildTasks_keys {db : List DBRow} {corp : String}
    {det : List (String × String)} {missing : List MissTask}
    {x : Nat × String × String}
    (hx : x ∈ (buildTasks db corp det missing).map taskKey) :
    (x.1, x.2.1) ∈ missing.map missKeyRC := by
  rcases List.mem_map.mp hx with ⟨tk, htk, rfl⟩
  rcases mem_buildTasks htk with ⟨mt, hmt, fd, _, rfl⟩
  exact List.mem_map_of_mem _ hmt

/-- The bulk fan-out never enqueues the same `(year, report_code, fs)` twice:
the missing periods have distinct keys and the surviving candidate variants
have distinct codes. -/
theorem buildTasks_keys_nodup (db : List DBRow) (corp : String)
    (det : List (String × String))
    (hdet : (det.map (fun fd => fd.2)).Nodup) :
    ∀ (missing : List MissTask), (missing.map missKeyRC).Nodup →
      ((buildTasks db corp det missing).map taskKey).Nodup
  | [], _ => by simp [buildTasks]
  | t :: rest, hmiss => by
    have hcons := List.nodup_cons.mp (List.map_cons missKeyRC t rest ▸ hmiss)
    unfold buildTasks
    rw [List.flatMap_cons, List.map_append, List.nodup_append]
    refine ⟨?_, ?_, ?_⟩
    · split
      · simp
      · rw [List.map_map]
        have hcomp : (taskKey ∘ fun fd : String × String =>
            (⟨t.year, t.quarter, t.report_code, t.report_name, fd.2, fd.1⟩ :
              ApiTask)) =
            (fun c => (t.year, t.report_code, c)) ∘ (fun fd => fd.2) := rfl
        rw [hcomp, ← List.map_map]
        refine List.Nodup.map ?_ hdet
        intro c1 c2 hcc
        exact congrArg (fun p : Nat × String × String => p.2.2) hcc
    · exact buildTasks_keys_nodup db corp det hdet rest hcons.2
    · intro x hx hx2
      have h2 : (x.1, x.2.1) ∈ rest.map missKeyRC :=
        mem_buildTasks_keys (x := x) hx2
      have h1 : (x.1, x.2.1) = missKeyRC t := by
        split at hx
        · simp at hx
        · rw [List.map_map] at hx
          rcases List.mem_map.mp hx with ⟨fd, _, rfl⟩
          rfl
      rw [h1] at h2
      exact hcons.1 h2

/-- C4 (counterexample): with an empty cache and an oracle that has data only
for `(2021, Q1)` under Separate, probing fails at `(2025, Q1)` under both
variants, succeeds at `(2021, Q1)` under `OFS` — and the bulk phase then
fetches `(2025, Q1, OFS)` again, a combination that already failed during
probing: the same fetch is attempted twice within one run. -/
theorem probe_failure_refetched_in_bulk :
    ((collectRun fetchOldestOFS "c" [] 202503).attempts.count
      (2025, "11013", "OFS")) = 2 := by decide

/-- C4 (amended): within each phase separately there is no repeat — the
sequential probe log contains pairwise-distinct `(year, report_code, fs)`
combinations, and so does the bulk task list — provided the planned periods
have pairwise-distinct `(year, report_code)` keys (true of every real plan);
but a combination that failed during probing may be fetched again by the bulk
phase, per the counterexample. -/
theorem no_repeat_within_phase (F : Fetch) (corp : String) (db0 : List DBRow)
    (ym : Nat)
    (hplan : (((quartersToCollect ym).map planKeyRC)).Nodup) :
    (collectRun F corp db0 ym).probeLog.Nodup ∧
    ((collectRun F corp db0 ym).tasks.map taskKey).Nodup := by
  have hsub : List.Sublist (((runPhase1 db0 corp ym).2).map missKeyRC)
      ((quartersToCollect ym).map planKeyRC) := by
    have h := phase1Go_missing_sublist db0 corp (quartersToCollect ym) fs_divs []
    simpa using h
  have hmissNodup : (((runPhase1 db0 corp ym).2).map missKeyRC).Nodup :=
    hsub.nodup hplan
  have hdet2Ok : detOk (runProbe F corp db0 ym).1 := by
    unfold runProbe probePhase
    split
    · exact probeLoop_detOk F corp _ _ db0 []
        (phase1Go_detOk db0 corp (quartersToCollect ym) fs_divs [] (Or.inl rfl))
    · exact phase1Go_detOk db0 corp (quartersToCollect ym) fs_divs [] (Or.inl rfl)
  have hsortNodup :
      ((sortMissingDesc ((runPhase1 db0 corp ym).2)).map missKeyRC).Nodup := by
    have hp : List.Perm
        ((sortMissingDesc ((runPhase1 db0 corp ym).2)).map missKeyRC)
        (((runPhase1 db0 corp ym).2).map missKeyRC) :=
      (List.perm_insertionSort missGE _).map missKeyRC
    exact hp.nodup_iff.mpr hmissNodup
  have hplogNodup : ((runProbe F corp db0 ym).2.2).Nodup := by
    unfold runProbe probePhase
    split
    · refine probeLoop_log_nodup F corp _ _ db0 [] hsortNodup ?_ List.nodup_nil
      intro a ha
      exact absurd ha (List.not_mem_nil a)
    · exact List.nodup_nil
  have htasksNodup : ((runTasks F corp db0 ym).map taskKey).Nodup := by
    unfold runTasks
    exact buildTasks_keys_nodup _ corp _ (detOk_codes_nodup hdet2Ok) _ hmissNodup
  unfold collectRun
  split
  · exact ⟨List.nodup_nil, by simp⟩
  · exact ⟨hplogNodup, htasksNodup⟩

/-- Witness for `no_repeat_within_phase` on the concrete counterexample run:
even there, neither phase repeats a combination internally. -/
theorem no_repeat_within_phase_witness :
    (collectRun fetchOldestOFS "c" [] 202503).probeLog.Nodup ∧
    ((collectRun fetchOldestOFS "c" [] 202503).tasks.map taskKey).Nodup :=
  no_repeat_within_phase fetchOldestOFS "c" [] 202503 (by decide)

/-- A fold of upserts of rows drawn from a non-empty list leaves at least one
of the upserted rows in the table (later upserts only displace rows sharing
the exact primary key, and the last upserted row is never displaced). -/
theorem foldl_upsert_exists (g : FetchRow → DBRow) (P : DBRow → Bool)
    (hP : ∀ s, P (g s) = true) :
    ∀ (l : List FetchRow) (init : List DBRow), l ≠ [] →
      ∃ r ∈ l.foldl (fun acc s => upsertRow acc (g s)) init, P r = true
  | [], _, hne => absurd rfl hne
  | [x], init, _ => ⟨g x, by simp [upsertRow], hP x⟩
  | x :: y :: rest, init, _ =>
    foldl_upsert_exists g P hP (y :: rest) (upsertRow init (g x)) (by simp)

theorem hasDB_of_exists {db : List DBRow} {corp : String} {y : Nat}
    {rc fs : String}
    (h : ∃ r ∈ db, (r.corp_code == corp && r.year == y &&
      r.report_code == rc && r.fs_div == fs) = true) :
    hasDB db corp y rc fs = true := by
  rcases h with ⟨r, hr, hp⟩
  have hne : db.filter (fun r => r.corp_code == corp && r.year == y &&
      r.report_code == rc && r.fs_div == fs) ≠ [] :=
    List.ne_nil_of_mem (List.mem_filter.mpr ⟨hr, hp⟩)
  unfold hasDB get_financial_data_from_db
  rw [if_neg (by simpa [List.isEmpty_iff] using hne)]
  rfl

/-- A successful save of a fetch containing a tracked line item leaves the
cache with data under the saved `(corp, year, report_code, fs_div)` key. -/
theorem save_writes_key (db : List DBRow) (df : List FetchRow) (corp : String)
    (y q : Nat) (rc fs : String) (s : FetchRow) (hs : s ∈ df)
    (htr : s.account_id ∈ key_items) :
    hasDB (save_financial_data_to_db db df corp y q rc fs) corp y rc fs
      = true := by
  have hdfne : df.isEmpty = false := by
    cases df
    · exact absurd hs (List.not_mem_nil s)
    · rfl
  have hsin : s ∈ df.filter (fun r => decide (r.account_id ∈ key_items)) :=
    List.mem_filter.mpr ⟨hs, by simpa using htr⟩
  have htne : df.filter (fun r => decide (r.account_id ∈ key_items)) ≠ [] :=
    List.ne_nil_of_mem hsin
  have htempty :
      (df.filter (fun r => decide (r.account_id ∈ key_items))).isEmpty
        = false := by
    simpa [List.isEmpty_iff] using htne
  unfold save_financial_data_to_db
  rw [if_neg (by simp [hdfne]), if_neg (by simp [htempty])]
  exact hasDB_of_exists (foldl_upsert_exists (mkSavedRow corp y q rc fs)
    (fun r => r.corp_code == corp && r.year == y &&
      r.report_code == rc && r.fs_div == fs)
    (fun s => by simp [mkSavedRow]) _ db htne)

/-- C5: the probing protocol.  (i) The probe order is exactly the missing
periods sorted descending by `(year, quarter)` (a sorted permutation), and
within `collectRun` probing runs exactly on that sorted list whenever both
variants are still candidates and some period is missing.  (ii) A period
whose Consolidated fetch yields data confirms Consolidated, saves the result
to the cache, and stops.  (iii) Otherwise a Separate fetch yielding data
confirms Separate, saves, and stops.  (iv) When neither yields data the loop
advances to the next older period.  (v) Every successful probe save leaves
cache data under the probed key whenever the fetched statement contains a
tracked line item. -/
theorem probe_protocol :
    (∀ missing : List MissTask,
      List.Perm (sortMissingDesc missing) missing ∧
      List.Sorted missGE (sortMissingDesc missing)) ∧
    (∀ (F : Fetch) (corp : String) (db0 : List DBRow) (ym : Nat),
      (runPhase1 db0 corp ym).1.length > 1 →
      ((runPhase1 db0 corp ym).2).isEmpty = false →
      (collectRun F corp db0 ym).probeLog =
        (probeLoop F corp (sortMissingDesc ((runPhase1 db0 corp ym).2))
          ((runPhase1 db0 corp ym).1) db0 []).2.2) ∧
    (∀ (F : Fetch) (corp : String) (t : MissTask) (rest : List MissTask)
      (det : List (String × String)) (db : List DBRow)
      (log : List (Nat × String × String)) (df : List FetchRow),
      F corp t.year t.report_code "CFS" = some df →
      probeLoop F corp (t :: rest) det db log =
        ([("연결", "CFS")],
         save_financial_data_to_db db df corp t.year t.quarter t.report_code
           "CFS",
         log ++ [(t.year, t.report_code, "CFS")])) ∧
    (∀ (F : Fetch) (corp : String) (t : MissTask) (rest : List MissTask)
      (det : List (String × String)) (db : List DBRow)
      (log : List (Nat × String × String)) (df : List FetchRow),
      F corp t.year t.report_code "CFS" = none →
      F corp t.year t.report_code "OFS" = some df →
      probeLoop F corp (t :: rest) det db log =
        ([("별도", "OFS")],
         save_financial_data_to_db db df corp t.year t.quarter t.report_code
           "OFS",
         log ++ [(t.year, t.report_code, "CFS"),
           (t.year, t.report_code, "OFS")])) ∧
    (∀ (F : Fetch) (corp : String) (t : MissTask) (rest : List MissTask)
      (det : List (String × String)) (db : List DBRow)
      (log : List (Nat × String × String)),
      F corp t.year t.report_code "CFS" = none →
      F corp t.year t.report_code "OFS" = none →
      probeLoop F corp (t :: rest) det db log =
        probeLoop F corp rest det db
          (log ++ [(t.year, t.report_code, "CFS"),
            (t.year, t.report_code, "OFS")])) ∧
    (∀ (db : List DBRow) (df : List FetchRow) (corp : String) (y q : Nat)
      (rc fs : String) (s : FetchRow), s ∈ df → s.account_id ∈ key_items →
      hasDB (save_financial_data_to_db db df corp y q rc fs) corp y rc fs
        = true) := by
  refine ⟨?_, ?_, ?_, ?_, ?_, ?_⟩
  · exact fun missing => ⟨List.perm_insertionSort missGE missing,
      List.sorted_insertionSort missGE missing⟩
  · intro F corp db0 ym hlen hne
    unfold collectRun
    rw [if_neg (by simp [hne])]
    show (runProbe F corp db0 ym).2.2 = _
    unfold runProbe probePhase
    rw [if_pos hlen]
  · intro F corp t rest det db log df hC
    unfold probeLoop
    rw [hC]
  · intro F corp t rest det db log df hC hO
    unfold probeLoop
    rw [hC, hO]
  · intro F corp t rest det db log hC hO
    conv_lhs => unfold probeLoop
    rw [hC, hO]
  · intro db df corp y q rc fs s hs htr
    exact save_writes_key db df corp y q rc fs s hs htr

/-- Witness for `probe_protocol`: a concrete one-period probe whose
Consolidated fetch succeeds — Consolidated confirmed, result saved, one
logged fetch. -/
theorem probe_protocol_witness :
    probeLoop fetchCFS "c" [⟨2025, 1, "11013", "1분기보고서"⟩] fs_divs [] [] =
      ([("연결", "CFS")],
       save_financial_data_to_db [] probeDf "c" 2025 1 "11013" "CFS",
       [(2025, "11013", "CFS")]) :=
  probe_protocol.2.2.1 fetchCFS "c" ⟨2025, 1, "11013", "1분기보고서"⟩ []
    fs_divs [] [] probeDf rfl

end DartApp
